import Mathlib

/-!
Verification development for the strigil web-scraper pipeline.

Shallow embedding of the Python sources under src/strigil/ (storage.py,
fetcher.py, extractors.py, pipeline.py).  Python strings are Lean `String`s
(character lists); regular-expression character class `\w` is modelled as the
ASCII word characters; floating-point delays are modelled as rationals;
dictionaries are modelled as association lists or lookup functions as noted
at each definition.
-/

namespace Strigil

/-! ### Basic string helpers (substring search, case folding) -/

/-- Lowercase every character of a string (ASCII, mirroring `str.lower` on the
URLs handled here). -/
def toLowerS (s : String) : String := ⟨s.data.map Char.toLower⟩

/-- Case-insensitive character comparison. -/
def charEqCI (a b : Char) : Bool := a.toLower == b.toLower

/-- Case-insensitive prefix test on character lists. -/
def isPrefixCI : List Char → List Char → Bool
  | [], _ => true
  | _ :: _, [] => false
  | p :: ps, c :: cs => charEqCI p c && isPrefixCI ps cs

/-- Split a character list at the first occurrence of a substring:
returns `(before, rest-starting-at-match)`, or `none` when absent. -/
def breakAtSub (pat : List Char) : List Char → Option (List Char × List Char)
  | [] => if pat.isEmpty then some ([], []) else none
  | c :: cs =>
    if pat.isPrefixOf (c :: cs) then some ([], c :: cs)
    else (breakAtSub pat cs).map (fun pr => (c :: pr.1, pr.2))

/-- Substring containment test (case-sensitive), mirroring Python `in`. -/
def occursS (pat s : String) : Bool := (breakAtSub pat.data s.data).isSome

/-- Prefix test on strings, mirroring `str.startswith`. -/
def startsWithS (pat s : String) : Bool := pat.data.isPrefixOf s.data

/-- Suffix test on strings, mirroring `str.endswith`. -/
def endsWithS (pat s : String) : Bool := pat.data.isSuffixOf s.data

/-- Replace the first occurrence of a substring, mirroring
`str.replace(old, new, 1)`. -/
def replaceFirstSub (pat repl s : String) : String :=
  match breakAtSub pat.data s.data with
  | some pr => ⟨pr.1 ++ repl.data ++ pr.2.drop pat.data.length⟩
  | none => s

/-! ### urllib.parse.urlsplit / urlparse

Model of CPython `urlsplit` (scheme, netloc, path, query, fragment); the
params component of `urlparse` is not modelled (no URL handled here carries
a `;` path parameter). -/

structure UrlParts where
  scheme : String
  netloc : String
  path : String
  query : String
  fragment : String
deriving DecidableEq

/-- Characters allowed in a URL scheme (CPython `scheme_chars`). -/
def isSchemeChar (c : Char) : Bool :=
  c.isAlpha || c.isDigit || c == '+' || c == '-' || c == '.'

/-- Split a character list at the first occurrence of a character:
`(before, after)`; when absent, `(s, [])` (which coincides with Python
leaving the second component empty). -/
def splitFirstAt (ch : Char) : List Char → List Char × List Char
  | [] => ([], [])
  | a :: rest =>
    if a == ch then ([], rest)
    else
      let pr := splitFirstAt ch rest
      (a :: pr.1, pr.2)

/-- Model of `urllib.parse.urlsplit`. -/
def pyUrlsplit (url : String) : UrlParts :=
  let s := url.data
  let schemeRest : List Char × List Char :=
    match List.findIdx? (fun c => c == ':') s with
    | some i =>
      if decide (0 < i)
          && (match s.head? with | some c => c.isAlpha | none => false)
          && (s.take i).all isSchemeChar then
        ((s.take i).map Char.toLower, s.drop (i + 1))
      else ([], s)
    | none => ([], s)
  let scheme := schemeRest.1
  let rest := schemeRest.2
  let netlocRest : List Char × List Char :=
    if rest.take 2 = ['/', '/'] then
      let after := rest.drop 2
      (after.takeWhile (fun c => !(c == '/' || c == '?' || c == '#')),
       after.dropWhile (fun c => !(c == '/' || c == '?' || c == '#')))
    else ([], rest)
  let netloc := netlocRest.1
  let rest := netlocRest.2
  let restFrag := splitFirstAt '#' rest
  let pathQuery := splitFirstAt '?' restFrag.1
  ⟨⟨scheme⟩, ⟨netloc⟩, ⟨pathQuery.1⟩, ⟨pathQuery.2⟩, ⟨restFrag.2⟩⟩

/-! ### storage.sanitize_domain -/

/-- Python `\w` on the ASCII range: letters, digits, underscore. -/
def isWordChar (c : Char) : Bool := c.isAlphanum || c == '_'

/-- One character of `re.sub(r"[^\w.-]", "_", s)`. -/
def underscoreChar (c : Char) : Char :=
  if isWordChar c || c == '.' || c == '-' then c else '_'

/-- `re.sub(r"[^\w.-]", "_", s)`. -/
def underscoreSub (s : String) : String := ⟨s.data.map underscoreChar⟩

/-- Python `a or b` on strings (empty string is falsy). -/
def pyOrStr (a b : String) : String := if a = "" then b else a

/-- storage.sanitize_domain: extract netloc, replace characters outside
word/dot/dash with underscore, fall back to "unknown". -/
def sanitize_domain (url : String) : String :=
  pyOrStr (underscoreSub (pyOrStr (pyUrlsplit url).netloc "unknown")) "unknown"

/-- The character set `[A-Za-z0-9._-]` claimed for host slugs (ASCII). -/
def allowedHostChar (c : Char) : Bool :=
  c.isAlphanum || c == '.' || c == '_' || c == '-'

theorem underscoreChar_allowed (c : Char) : allowedHostChar (underscoreChar c) = true := by
  unfold underscoreChar
  split
  · next h =>
    simp only [Bool.or_eq_true, isWordChar, allowedHostChar] at h ⊢
    tauto
  · rfl

theorem underscoreSub_allowed (s : String) :
    ∀ c ∈ (underscoreSub s).data, allowedHostChar c = true := by
  intro c hc
  simp only [underscoreSub, List.mem_map] at hc
  obtain ⟨a, _, rfl⟩ := hc
  exact underscoreChar_allowed a

/-- Claim C8: sanitize_host (sanitize_domain in the code) returns a non-empty
string over `[A-Za-z0-9._-]`; characters of the netloc outside word/dot/dash
become underscores, and an empty netloc yields "unknown". -/
theorem sanitize_domain_spec (url : String) :
    sanitize_domain url ≠ "" ∧
    (∀ c ∈ (sanitize_domain url).data, allowedHostChar c = true) ∧
    ((pyUrlsplit url).netloc = "" → sanitize_domain url = "unknown") ∧
    ((pyUrlsplit url).netloc ≠ "" →
      sanitize_domain url = pyOrStr (underscoreSub (pyUrlsplit url).netloc) "unknown") := by
  have hne : ∀ d, pyOrStr (underscoreSub d) "unknown" ≠ "" := by
    intro d
    unfold pyOrStr
    split
    · decide
    · assumption
  have hchars : ∀ d, ∀ c ∈ (pyOrStr (underscoreSub d) "unknown").data,
      allowedHostChar c = true := by
    intro d c hc
    unfold pyOrStr at hc
    split at hc
    · fin_cases hc <;> decide
    · exact underscoreSub_allowed d c hc
  refine ⟨hne _, hchars _, ?_, ?_⟩
  · intro h
    show pyOrStr (underscoreSub (pyOrStr (pyUrlsplit url).netloc "unknown")) "unknown" = "unknown"
    rw [show pyOrStr (pyUrlsplit url).netloc "unknown" = "unknown" from by
      rw [pyOrStr, if_pos h]]
    decide
  · intro h
    show pyOrStr (underscoreSub (pyOrStr (pyUrlsplit url).netloc "unknown")) "unknown"
        = pyOrStr (underscoreSub (pyUrlsplit url).netloc) "unknown"
    rw [show pyOrStr (pyUrlsplit url).netloc "unknown" = (pyUrlsplit url).netloc from by
      rw [pyOrStr, if_neg h]]

/-- Witness for C8 at a concrete URL with an empty netloc. -/
theorem sanitize_domain_spec_witness :
    (pyUrlsplit "relative/path").netloc = "" ∧ sanitize_domain "relative/path" = "unknown" :=
  ⟨by decide, (sanitize_domain_spec "relative/path").2.2.1 (by decide)⟩

/-! ### extractors: THUMB_TO_FULL substitutions (get_best_image_url)

`re.sub` with a fixed pattern and `re.IGNORECASE` is modelled as a
left-to-right non-overlapping case-insensitive replacement.  The recursion
is driven by a fuel argument equal to the input length (each step consumes
at least one character, so that fuel always suffices). -/

/-- One `re.sub` pass for a fixed (already lowercase) pattern, case-insensitive. -/
def subFixedCIAux (pat repl : List Char) : Nat → List Char → List Char
  | _, [] => []
  | 0, s => s
  | fuel + 1, c :: cs =>
    if isPrefixCI pat (c :: cs) then
      repl ++ subFixedCIAux pat repl fuel ((c :: cs).drop pat.length)
    else
      c :: subFixedCIAux pat repl fuel cs

/-- `re.sub(pat, repl, s, flags=re.IGNORECASE)` for a fixed nonempty pattern. -/
def subFixedCI (pat repl s : String) : String :=
  if pat.data.isEmpty then s
  else ⟨subFixedCIAux pat.data repl.data s.data.length s.data⟩

/-- Match the regex `/thumb(s|nails?)/` (case-insensitive) at the head of a
character list; returns the remainder after the match.  The alternation is
tried in regex order: `s`, then greedy `nails`, then `nail`, each followed
by `/`. -/
def matchThumbTail (s : List Char) : Option (List Char) :=
  if isPrefixCI "/thumb".data s then
    let r := s.drop 6
    if isPrefixCI "s/".data r then some (r.drop 2)
    else if isPrefixCI "nails/".data r then some (r.drop 6)
    else if isPrefixCI "nail/".data r then some (r.drop 5)
    else none
  else none

/-- `re.sub(r"/thumb(s|nails?)/", "/full/", s, flags=re.IGNORECASE)`. -/
def subThumbAux : Nat → List Char → List Char
  | _, [] => []
  | 0, s => s
  | fuel + 1, c :: cs =>
    match matchThumbTail (c :: cs) with
    | some r => "/full/".data ++ subThumbAux fuel r
    | none => c :: subThumbAux fuel cs

/-- extractors._try_high_res_url: the ordered THUMB_TO_FULL substitution chain
as written in the source (note the third rule is the slash-anchored
`/_s\.` → `/_b.`). -/
def try_high_res_url (url : String) : String :=
  let r := (⟨subThumbAux url.data.length url.data⟩ : String)
  let r := subFixedCI "/small/" "/large/" r
  let r := subFixedCI "/_s." "/_b." r
  let r := subFixedCI "-thumb" "" r
  let r := subFixedCI "_thumb" "" r
  let r := subFixedCI "/thumb/" "/original/" r
  subFixedCI "thumbnail" "original" r

/-- extractors.get_best_image_url (the `head_content_type` argument is unused
by the source as well). -/
def get_best_image_url (url : String) (_headContentType : Option String)
    (tryHighRes : Bool) : String :=
  if !tryHighRes then url
  else
    let highRes := try_high_res_url url
    if highRes ≠ url then highRes else url

/-- Modelled from the spec: the substitution chain exactly as the
specification lists it, whose third rule is the unanchored `_s.` → `_b.`
(the source anchors it as `/_s.` → `/_b.`). -/
def spec_try_high_res_url (url : String) : String :=
  let r := (⟨subThumbAux url.data.length url.data⟩ : String)
  let r := subFixedCI "/small/" "/large/" r
  let r := subFixedCI "_s." "_b." r
  let r := subFixedCI "-thumb" "" r
  let r := subFixedCI "_thumb" "" r
  let r := subFixedCI "/thumb/" "/original/" r
  subFixedCI "thumbnail" "original" r

/-- Modelled from the spec: get_best_image_url as the claim describes it. -/
def spec_get_best_image_url (url : String) (_headContentType : Option String)
    (tryHighRes : Bool) : String :=
  if !tryHighRes then url
  else
    let highRes := spec_try_high_res_url url
    if highRes ≠ url then highRes else url

/-- Counterexample for C6: on `http://e.com/img_s.jpg` the code leaves the URL
unchanged (its third rule demands a slash before `_s.`), while the rule list
stated by the claim rewrites it to `img_b.jpg`. -/
theorem get_best_image_url_cex :
    get_best_image_url "http://e.com/img_s.jpg" none true = "http://e.com/img_s.jpg" ∧
    spec_get_best_image_url "http://e.com/img_s.jpg" none true = "http://e.com/img_b.jpg" ∧
    get_best_image_url "http://e.com/img_s.jpg" none true ≠
      spec_get_best_image_url "http://e.com/img_s.jpg" none true := by
  refine ⟨by decide, by decide, by decide⟩

/-! No-rule-fires analysis: when none of the seven patterns occurs anywhere in
the URL (case-insensitively), every pass is the identity. -/

/-- Does a predicate hold of some suffix of the list? -/
def existsSuffix (p : List Char → Bool) : List Char → Bool
  | [] => p []
  | c :: cs => p (c :: cs) || existsSuffix p cs

/-- Case-insensitive substring occurrence. -/
def occursCI (pat : String) (s : String) : Bool :=
  existsSuffix (isPrefixCI pat.data) s.data

/-- True when at least one THUMB_TO_FULL rule can fire somewhere in the URL. -/
def someThumbRuleFires (url : String) : Bool :=
  existsSuffix (fun t => (matchThumbTail t).isSome) url.data ||
  occursCI "/small/" url || occursCI "/_s." url || occursCI "-thumb" url ||
  occursCI "_thumb" url || occursCI "/thumb/" url || occursCI "thumbnail" url

theorem subFixedCIAux_id (pat repl : List Char) (fuel : Nat) (s : List Char)
    (h : existsSuffix (isPrefixCI pat) s = false) :
    subFixedCIAux pat repl fuel s = s := by
  induction fuel generalizing s with
  | zero => cases s <;> rfl
  | succ n ih =>
    cases s with
    | nil => rfl
    | cons c cs =>
      simp only [existsSuffix, Bool.or_eq_false_iff] at h
      simp [subFixedCIAux, h.1, ih cs h.2]

theorem subThumbAux_id (fuel : Nat) (s : List Char)
    (h : existsSuffix (fun t => (matchThumbTail t).isSome) s = false) :
    subThumbAux fuel s = s := by
  induction fuel generalizing s with
  | zero => cases s <;> rfl
  | succ n ih =>
    cases s with
    | nil => rfl
    | cons c cs =>
      simp only [existsSuffix, Bool.or_eq_false_iff] at h
      have hm : matchThumbTail (c :: cs) = none := by
        cases hmt : matchThumbTail (c :: cs) with
        | none => rfl
        | some r => rw [hmt] at h; exact absurd h.1 (by simp)
      simp only [subThumbAux, hm]
      rw [ih cs h.2]

theorem subFixedCI_id (pat repl s : String) (h : occursCI pat s = false) :
    subFixedCI pat repl s = s := by
  unfold subFixedCI
  split
  · rfl
  · rw [subFixedCIAux_id pat.data repl.data s.data.length s.data h]

/-- One rule of the THUMB_TO_FULL table, as the specification presents it:
either the alternation pattern `/thumb(s|nails?)/` or a fixed pattern with
its replacement. -/
inductive ThumbRule where
  | thumbNails
  | fixed (pat repl : String)

/-- The amended rule table: the ordered substitutions of the claim with the
third rule slash-anchored as in the source (`/_s.` → `/_b.`). -/
def amendedThumbRules : List ThumbRule :=
  [ .thumbNails,
    .fixed "/small/" "/large/",
    .fixed "/_s." "/_b.",
    .fixed "-thumb" "",
    .fixed "_thumb" "",
    .fixed "/thumb/" "/original/",
    .fixed "thumbnail" "original" ]

/-- Apply one rule as a case-insensitive `re.sub` pass. -/
def applyThumbRule (r : ThumbRule) (s : String) : String :=
  match r with
  | .thumbNails => ⟨subThumbAux s.data.length s.data⟩
  | .fixed pat repl => subFixedCI pat repl s

/-- Apply an ordered rule table left to right, each rule to the result of the
previous one. -/
def applyThumbRules (rules : List ThumbRule) (s : String) : String :=
  rules.foldl (fun acc r => applyThumbRule r acc) s

theorem try_high_res_url_id (url : String) (h : someThumbRuleFires url = false) :
    try_high_res_url url = url := by
  simp only [someThumbRuleFires, Bool.or_eq_false_iff] at h
  obtain ⟨⟨⟨⟨⟨⟨h1, h2⟩, h3⟩, h4⟩, h5⟩, h6⟩, h7⟩ := h
  show subFixedCI "thumbnail" "original"
      (subFixedCI "/thumb/" "/original/"
        (subFixedCI "_thumb" ""
          (subFixedCI "-thumb" ""
            (subFixedCI "/_s." "/_b."
              (subFixedCI "/small/" "/large/"
                (⟨subThumbAux url.data.length url.data⟩ : String)))))) = url
  rw [show (⟨subThumbAux url.data.length url.data⟩ : String) = url from by
    rw [subThumbAux_id _ _ h1]]
  rw [subFixedCI_id _ _ _ h2, subFixedCI_id _ _ _ h3, subFixedCI_id _ _ _ h4,
    subFixedCI_id _ _ _ h5, subFixedCI_id _ _ _ h6, subFixedCI_id _ _ _ h7]

theorem get_best_image_url_eq_chain (url : String) (hct : Option String) :
    get_best_image_url url hct true = try_high_res_url url := by
  unfold get_best_image_url
  simp only [Bool.not_true, Bool.false_eq_true, if_false]
  split
  · rfl
  · rename_i hne
    exact (not_not.mp hne).symm

/-- Claim C6 (amended): with high-res enabled, get_best_image_url applies the
ordered case-insensitive substitution table whose third rule is the
slash-anchored `/_s.` → `/_b.` — for every URL the result is the left-to-right
fold of that table — the original URL is returned when no rule fires, and
each of the seven rules does rewrite a URL it matches, in table order
(`-thumb` strips `x-thumbnail` before the `thumbnail` rule can see it). -/
theorem get_best_image_url_amended (url : String) (hct : Option String) :
    get_best_image_url url hct true = applyThumbRules amendedThumbRules url ∧
    (someThumbRuleFires url = false → get_best_image_url url hct true = url) ∧
    get_best_image_url "http://e.com/thumbs/i.jpg" none true
      = "http://e.com/full/i.jpg" ∧
    get_best_image_url "http://e.com/small/i.jpg" none true
      = "http://e.com/large/i.jpg" ∧
    get_best_image_url "http://e.com/a/_s.jpg" none true
      = "http://e.com/a/_b.jpg" ∧
    get_best_image_url "http://e.com/i-thumb.jpg" none true
      = "http://e.com/i.jpg" ∧
    get_best_image_url "http://e.com/i_thumb.jpg" none true
      = "http://e.com/i.jpg" ∧
    get_best_image_url "http://e.com/thumb/i.jpg" none true
      = "http://e.com/original/i.jpg" ∧
    get_best_image_url "http://e.com/thumbnail_i.jpg" none true
      = "http://e.com/original_i.jpg" ∧
    get_best_image_url "http://e.com/x-thumbnail.jpg" none true
      = "http://e.com/xnail.jpg" := by
  refine ⟨?_, ?_, by decide, by decide, by decide, by decide, by decide, by decide,
    by decide, by decide⟩
  · rw [get_best_image_url_eq_chain url hct]
    simp only [applyThumbRules, amendedThumbRules, List.foldl, applyThumbRule]
    rfl
  · intro h
    rw [get_best_image_url_eq_chain url hct]
    exact try_high_res_url_id url h

/-- Witness for C6 (amended) at a URL where no rule fires. -/
theorem get_best_image_url_amended_witness :
    someThumbRuleFires "http://e.com/photo.png" = false ∧
    get_best_image_url "http://e.com/photo.png" none true = "http://e.com/photo.png" :=
  ⟨by decide, (get_best_image_url_amended "http://e.com/photo.png" none).2.1 (by decide)⟩

/-! ### JSON model for IIIF manifests (extractors.parse_iiif_manifest)

JSON values as decoded by `json.loads`; dictionaries are association lists
(keys unique in any decoded document). -/

inductive Json where
  | null
  | bool (b : Bool)
  | num (n : Int)
  | str (s : String)
  | arr (elems : List Json)
  | obj (fields : List (String × Json))

/-- `dict.get(key)`: `null` models Python `None` (missing key or non-dict). -/
def Json.lookup (j : Json) (key : String) : Json :=
  match j with
  | .obj fields =>
    match fields.find? (fun kv => kv.1 == key) with
    | some kv => kv.2
    | none => .null
  | _ => .null

/-- Python truthiness of a decoded JSON value. -/
def Json.truthy : Json → Bool
  | .null => false
  | .bool b => b
  | .num n => n != 0
  | .str s => s != ""
  | .arr xs => !xs.isEmpty
  | .obj fs => !fs.isEmpty

/-- Python `a or b` on JSON values. -/
def pyOrJson (a b : Json) : Json := if a.truthy then a else b

/-- Iterating a JSON value as a list (the modelled code only iterates lists). -/
def Json.asList : Json → List Json
  | .arr xs => xs
  | _ => []

/-- `isinstance(x, dict)`. -/
def Json.isDict : Json → Bool
  | .obj _ => true
  | _ => false

/-- Python `str()` restricted to scalars (the modelled code only applies it to
service ids, which are scalars in the documents handled). -/
def pyStr : Json → String
  | .str s => s
  | .num n => toString n
  | .bool true => "True"
  | .bool false => "False"
  | .null => "None"
  | .arr _ => ""
  | .obj _ => ""

/-- `str.rstrip('/')`. -/
def rstripSlash (s : String) : String :=
  ⟨(s.data.reverse.dropWhile (fun c => c == '/')).reverse⟩

/-- `str.endswith((".jpg", ".png", ".jpeg", ".webp"))`. -/
def endsWithImageExt (s : String) : Bool :=
  endsWithS ".jpg" s || endsWithS ".png" s || endsWithS ".jpeg" s || endsWithS ".webp" s

/-- parse_iiif_manifest.to_full_res_iiif: rewrite an IIIF Image API URL to
full resolution. -/
def to_full_res_iiif (url : String) : String :=
  if occursS "/full/max/" url || occursS "/full/full/" url then url
  else if occursS "/full/" url && (occursS "iiif" (toLowerS url) || occursS "iiif" url) then
    let base : String :=
      match breakAtSub "/full/".data url.data with
      | some pr => ⟨pr.1⟩
      | none => url
    let tail : String :=
      if occursS "/0/default." url then
        match breakAtSub "/0/default.".data url.data with
        | some pr => ⟨pr.2⟩
        | none => "/0/default.jpg"
      else "/0/default.jpg"
    base ++ "/full/max" ++ tail
  else url

/-- parse_iiif_manifest.image_from_resource. -/
def image_from_resource (res : Json) (serviceId : Option String) : Option String :=
  let svc := res.lookup "service"
  let sidJ : Json :=
    match svc with
    | .obj _ => pyOrJson (svc.lookup "@id") (svc.lookup "id")
    | .arr (first :: _) =>
      if first.isDict then pyOrJson (first.lookup "@id") (first.lookup "id") else Json.null
    | _ => Json.null
  let sidJ : Json :=
    pyOrJson sidJ (match serviceId with | some s => Json.str s | none => Json.null)
  if sidJ.truthy then
    some (rstripSlash (pyStr sidJ) ++ "/full/max/0/default.jpg")
  else
    match pyOrJson (res.lookup "@id") (res.lookup "id") with
    | .str rid =>
      if occursS "iiif" (toLowerS rid) || endsWithImageExt rid then
        some (to_full_res_iiif rid)
      else none
    | _ => none

/-- parse_iiif_manifest.best_url_from_rendering, iterating the rendering list
with the running `full_max` fallback. -/
def bestFromRenderingList : List Json → Option String → Option String
  | [], fullMax => fullMax
  | r :: rest, fullMax =>
    if r.isDict then
      match pyOrJson (r.lookup "id") (r.lookup "@id") with
      | .str rid =>
        if occursS "/full/max/" rid then some rid
        else if occursS "/full/full/" rid then bestFromRenderingList rest (some rid)
        else bestFromRenderingList rest fullMax
      | _ => bestFromRenderingList rest fullMax
    else bestFromRenderingList rest fullMax

/-- parse_iiif_manifest.best_url_from_rendering. -/
def best_url_from_rendering (rendering : Json) : Option String :=
  match rendering with
  | .arr rs => bestFromRenderingList rs none
  | _ => none

/-- parse_iiif_manifest.add_url: append when nonempty and unseen (the seen set
always equals the accumulated list). -/
def addUrl (acc : List String) (u : String) : List String :=
  if u ≠ "" && !acc.contains u then acc ++ [u] else acc

/-- First truthy image URL among the annotations of one IIIF 3 annotation
page (`for ann in page.get("items")`). -/
def firstAnnUrl : List Json → Option String
  | [] => none
  | ann :: rest =>
    if ann.isDict then
      match ann.lookup "body" with
      | .obj bodyFields =>
        match image_from_resource (.obj bodyFields) none with
        | some u => if u ≠ "" then some u else firstAnnUrl rest
        | none => firstAnnUrl rest
      | _ => firstAnnUrl rest
    else firstAnnUrl rest

/-- First truthy image URL among IIIF 3 annotation pages
(`for page in canvas.get("items")`). -/
def firstPagesUrl : List Json → Option String
  | [] => none
  | page :: rest =>
    if page.isDict then
      match firstAnnUrl (pyOrJson (page.lookup "items") (Json.arr [])).asList with
      | some u => some u
      | none => firstPagesUrl rest
    else firstPagesUrl rest

/-- parse_iiif_manifest.walk_canvas: rendering first, then IIIF 3 annotation
pages (stopping at the first hit), then every IIIF 2 `images[].resource`. -/
def walk_canvas (acc : List String) (canvas : Json) : List String :=
  let ru := best_url_from_rendering (canvas.lookup "rendering")
  if (match ru with | some u => u != "" | none => false : Bool) then
    addUrl acc (ru.getD "")
  else
    match firstPagesUrl (pyOrJson (canvas.lookup "items") (Json.arr [])).asList with
    | some u => addUrl acc u
    | none =>
      (pyOrJson (canvas.lookup "images") (Json.arr [])).asList.foldl
        (fun a img =>
          let res := if img.isDict then img.lookup "resource" else Json.null
          if !res.truthy then a
          else
            match image_from_resource res none with
            | some u => if u ≠ "" then addUrl a u else a
            | none => a)
        acc

/-- extractors.parse_iiif_manifest: IIIF 2.0 sequences/canvases and IIIF 3.0
items, collecting full-size image URLs. -/
def parse_iiif_manifest (manifestData : Json) : List String :=
  let itemsOrSeqs :=
    (pyOrJson (manifestData.lookup "sequences")
      (pyOrJson (manifestData.lookup "items") (Json.arr []))).asList
  itemsOrSeqs.foldl
    (fun acc thing =>
      if !thing.isDict then acc
      else if (match thing.lookup "type" with | .str t => t == "Canvas" | _ => false : Bool) then
        walk_canvas acc thing
      else
        (pyOrJson (thing.lookup "canvases")
          (pyOrJson (thing.lookup "items") (Json.arr []))).asList.foldl
          (fun a canvas => if canvas.isDict then walk_canvas a canvas else a)
          acc)
    []

/-- Total number of canvases named by the sequences of a v2 manifest. -/
def v2CanvasCount (manifestData : Json) : Nat :=
  ((manifestData.lookup "sequences").asList.map
    (fun seq => (seq.lookup "canvases").asList.length)).sum

/-- A v2 manifest with one canvas that carries two `images[].resource`
entries, each bearing an image-API service id. -/
def c7CexManifest : Json :=
  .obj [("sequences", .arr [
    .obj [("canvases", .arr [
      .obj [("images", .arr [
        .obj [("resource", .obj [("service", .obj [("@id", .str "http://x.test/iiif/p1")])])],
        .obj [("resource", .obj [("service", .obj [("@id", .str "http://x.test/iiif/p2")])])]
      ])]
    ])]
  ])]

/-- Counterexample for C7: a v2 manifest whose single canvas carries two
`images[].resource` entries yields two image URLs, not one per canvas. -/
theorem parse_iiif_manifest_cex :
    v2CanvasCount c7CexManifest = 1 ∧
    parse_iiif_manifest c7CexManifest =
      ["http://x.test/iiif/p1/full/max/0/default.jpg",
       "http://x.test/iiif/p2/full/max/0/default.jpg"] ∧
    (parse_iiif_manifest c7CexManifest).length ≠ v2CanvasCount c7CexManifest := by
  refine ⟨by decide, by decide, by decide⟩

/-- One canvas of the amended v2 family: exactly one `images[].resource`
bearing the given image-API service id. -/
def mkV2Canvas (sid : String) : Json :=
  .obj [("images", .arr [.obj [("resource", .obj [("service", .obj [("@id", .str sid)])])]])]

/-- The amended v2 manifest family: one sequence listing one canvas per
service id. -/
def mkV2Manifest (ids : List String) : Json :=
  .obj [("sequences", .arr [.obj [("canvases", .arr (ids.map mkV2Canvas))]])]

/-- The full-size image URL the parser derives from an image-API service id. -/
def iiifFullMaxUrl (sid : String) : String :=
  rstripSlash sid ++ "/full/max/0/default.jpg"

theorem iiifFullMaxUrl_data (sid : String) :
    (iiifFullMaxUrl sid).data = (rstripSlash sid).data ++ "/full/max/0/default.jpg".data :=
  String.data_append _ _

theorem iiifFullMaxUrl_ne_empty (sid : String) : iiifFullMaxUrl sid ≠ "" := by
  intro h
  have hd := congrArg String.data h
  rw [iiifFullMaxUrl_data] at hd
  simp at hd

theorem walk_canvas_mkV2Canvas (sid : String) (acc : List String) (h : sid ≠ "") :
    walk_canvas acc (mkV2Canvas sid) = addUrl acc (iiifFullMaxUrl sid) := by
  have hne2 : ¬(rstripSlash sid ++ "/full/max/0/default.jpg" = "") := by
    have := iiifFullMaxUrl_ne_empty sid
    simpa [iiifFullMaxUrl] using this
  simp [walk_canvas, mkV2Canvas, Json.lookup, best_url_from_rendering, pyOrJson,
    Json.truthy, Json.asList, firstPagesUrl, Json.isDict, image_from_resource,
    pyStr, addUrl, iiifFullMaxUrl, h, hne2]

theorem foldl_walk_mkV2 (ids : List String) (acc : List String)
    (hne : ∀ sid ∈ ids, sid ≠ "")
    (hnd : (acc ++ ids.map iiifFullMaxUrl).Nodup) :
    (ids.map mkV2Canvas).foldl
        (fun a canvas => if canvas.isDict then walk_canvas a canvas else a) acc
      = acc ++ ids.map iiifFullMaxUrl := by
  induction ids generalizing acc with
  | nil => simp
  | cons sid rest ih =>
    simp only [List.map_cons, List.foldl_cons]
    have hdict : (mkV2Canvas sid).isDict = true := rfl
    rw [if_pos hdict]
    rw [walk_canvas_mkV2Canvas sid acc (hne sid (List.mem_cons_self sid rest))]
    have hmem : iiifFullMaxUrl sid ∉ acc := by
      rw [List.map_cons] at hnd
      have hd := List.disjoint_of_nodup_append hnd
      intro hin
      exact hd hin (List.mem_cons_self _ _)
    have hadd : addUrl acc (iiifFullMaxUrl sid) = acc ++ [iiifFullMaxUrl sid] := by
      unfold addUrl
      rw [if_pos]
      simp [iiifFullMaxUrl_ne_empty sid, hmem]
    rw [hadd]
    have hassoc : acc ++ [iiifFullMaxUrl sid] ++ rest.map iiifFullMaxUrl
        = acc ++ iiifFullMaxUrl sid :: rest.map iiifFullMaxUrl := by
      simp
    rw [ih (acc ++ [iiifFullMaxUrl sid])
      (fun s hs => hne s (List.mem_cons_of_mem _ hs))
      (by rw [hassoc]; simpa [List.map_cons] using hnd)]
    simp

/-- Claim C7 (amended): for a v2 manifest whose N canvases each carry exactly
one `images[].resource` bearing a nonempty image-API service id, with
pairwise-distinct derived URLs, parse_iiif_manifest yields exactly N image
URLs — one per resource — and each ends in `/full/max/0/default.jpg`. -/
theorem parse_iiif_manifest_amended (ids : List String)
    (hne : ∀ sid ∈ ids, sid ≠ "")
    (hnd : (ids.map iiifFullMaxUrl).Nodup) :
    parse_iiif_manifest (mkV2Manifest ids) = ids.map iiifFullMaxUrl ∧
    (parse_iiif_manifest (mkV2Manifest ids)).length = v2CanvasCount (mkV2Manifest ids) ∧
    ∀ u ∈ parse_iiif_manifest (mkV2Manifest ids),
      ∃ p : List Char, u.data = p ++ "/full/max/0/default.jpg".data := by
  have hparse : parse_iiif_manifest (mkV2Manifest ids) = ids.map iiifFullMaxUrl := by
    cases ids with
    | nil => decide
    | cons a rest =>
      show ((mkV2Canvas a :: rest.map mkV2Canvas).foldl
          (fun x canvas => if canvas.isDict then walk_canvas x canvas else x) [])
        = (a :: rest).map iiifFullMaxUrl
      exact foldl_walk_mkV2 (a :: rest) [] hne (by simpa using hnd)
  refine ⟨hparse, ?_, ?_⟩
  · rw [hparse]
    simp [v2CanvasCount, mkV2Manifest, Json.lookup, Json.asList]
  · intro u hu
    rw [hparse] at hu
    obtain ⟨sid, _, rfl⟩ := List.mem_map.mp hu
    exact ⟨(rstripSlash sid).data, iiifFullMaxUrl_data sid⟩

/-- Witness for C7 (amended) at two concrete service ids. -/
theorem parse_iiif_manifest_amended_witness :
    parse_iiif_manifest (mkV2Manifest ["http://x.test/iiif/a", "http://x.test/iiif/b"]) =
      ["http://x.test/iiif/a/full/max/0/default.jpg",
       "http://x.test/iiif/b/full/max/0/default.jpg"] := by
  have h := (parse_iiif_manifest_amended ["http://x.test/iiif/a", "http://x.test/iiif/b"]
    (by decide) (by decide)).1
  rw [h]
  decide

/-! ### fetcher: retry waits and the rate-limit floor

Seconds are modelled as rationals.  `email.utils.parsedate_to_datetime`
followed by `.timestamp()` is modelled as an abstract parameter
`parseDate : String → Option ℚ`, and the current clock as `now : ℚ`. -/

def BASE_WAIT_5XX : ℚ := 5
def RETRY_BACKOFF : ℚ := 2

/-- `str.strip()` (whitespace from both ends), implemented over character
lists so that it evaluates in the kernel. -/
def pyStrip (s : String) : String :=
  ⟨((s.data.dropWhile Char.isWhitespace).reverse.dropWhile Char.isWhitespace).reverse⟩

/-- `str.isdigit` (ASCII digits; nonempty). -/
def isDigitsStr (s : String) : Bool := !s.data.isEmpty && s.data.all Char.isDigit

/-- Numeric value of a digit string (`float(value)` of an all-digit string). -/
def digitsToNat (s : String) : Nat :=
  s.data.foldl (fun n c => n * 10 + (c.toNat - 48)) 0

/-- fetcher._parse_retry_after. -/
def parse_retry_after (parseDate : String → Option ℚ) (now : ℚ)
    (value : Option String) : Option ℚ :=
  match value with
  | none => none
  | some v =>
    if pyStrip v = "" then none
    else if isDigitsStr (pyStrip v) then some (digitsToNat (pyStrip v) : ℚ)
    else
      match parseDate (pyStrip v) with
      | some ts => if 0 < ts - now then some (max 1 (ts - now)) else none
      | none => none

/-- fetcher._is_retryable_5xx. -/
def is_retryable_5xx (code : Option Nat) : Bool :=
  match code with
  | some c => c == 500 || c == 502 || c == 503 || c == 504
  | none => false

/-- fetcher._wait_for_retry. -/
def wait_for_retry (parseDate : String → Option ℚ) (now : ℚ)
    (code : Option Nat) (attempt : Nat) (retryAfterHeader : Option String) : ℚ :=
  match parse_retry_after parseDate now retryAfterHeader with
  | some q => q
  | none =>
    if is_retryable_5xx code then BASE_WAIT_5XX * RETRY_BACKOFF ^ attempt
    else RETRY_BACKOFF ^ attempt

/-- Fetcher.fetch_html, retryable-status branch: the wait actually slept,
including the 429 minimum of 30 s. -/
def fetch_html_retry_wait (parseDate : String → Option ℚ) (now : ℚ)
    (code : Nat) (attempt : Nat) (hdr : Option String) : ℚ :=
  if code == 429 then max (wait_for_retry parseDate now (some code) attempt hdr) 30
  else wait_for_retry parseDate now (some code) attempt hdr

/-- Fetcher.fetch_html, retryable-status branch: compute the wait, enforce the
429 minimum, and install the wait into the rate-limit floor.  Returns
`(wait, new floor)`. -/
def fetch_html_retry_update (parseDate : String → Option ℚ) (now : ℚ)
    (code : Nat) (attempt : Nat) (hdr : Option String) (floor : ℚ) : ℚ × ℚ :=
  (fetch_html_retry_wait parseDate now code attempt hdr,
   max floor (fetch_html_retry_wait parseDate now code attempt hdr))

/-- Claim C5: the retry wait honors a parsed Retry-After header (numeric
seconds literally when the status is not 429; a future HTTP-date becomes a
positive second count), a 429 waits at least 30 s, and the wait is installed
as the new rate-limit floor by max with the current floor. -/
theorem retry_wait_policy (parseDate : String → Option ℚ) (now : ℚ)
    (code : Nat) (attempt : Nat) (hdr : Option String) (floor : ℚ) :
    (fetch_html_retry_update parseDate now code attempt hdr floor).2
      = max floor (fetch_html_retry_update parseDate now code attempt hdr floor).1 ∧
    (code = 429 → 30 ≤ (fetch_html_retry_update parseDate now code attempt hdr floor).1) ∧
    (∀ q, parse_retry_after parseDate now hdr = some q →
      q ≤ (fetch_html_retry_update parseDate now code attempt hdr floor).1 ∧
      (code ≠ 429 → (fetch_html_retry_update parseDate now code attempt hdr floor).1 = q)) ∧
    (∀ s, hdr = some s → pyStrip s ≠ "" → isDigitsStr (pyStrip s) = true →
      parse_retry_after parseDate now hdr = some (digitsToNat (pyStrip s) : ℚ)) ∧
    (∀ s ts, hdr = some s → pyStrip s ≠ "" → isDigitsStr (pyStrip s) = false →
      parseDate (pyStrip s) = some ts → now < ts →
      parse_retry_after parseDate now hdr = some (max 1 (ts - now)) ∧
      0 < max 1 (ts - now)) := by
  have hwr : ∀ q, parse_retry_after parseDate now hdr = some q →
      wait_for_retry parseDate now (some code) attempt hdr = q := by
    intro q hq
    unfold wait_for_retry
    rw [hq]
  refine ⟨rfl, ?_, ?_, ?_, ?_⟩
  · intro hc
    subst hc
    show 30 ≤ max (wait_for_retry parseDate now (some 429) attempt hdr) 30
    exact le_max_right _ _
  · intro q hq
    constructor
    · show q ≤ fetch_html_retry_wait parseDate now code attempt hdr
      unfold fetch_html_retry_wait
      split
      · rw [hwr q hq]
        exact le_max_left _ _
      · rw [hwr q hq]
    · intro hne
      show fetch_html_retry_wait parseDate now code attempt hdr = q
      unfold fetch_html_retry_wait
      rw [if_neg (by simpa using hne), hwr q hq]
  · intro s hs htrim hdig
    subst hs
    show (if pyStrip s = "" then none
        else if isDigitsStr (pyStrip s) then some ((digitsToNat (pyStrip s) : ℚ))
        else match parseDate (pyStrip s) with
          | some ts => if 0 < ts - now then some (max 1 (ts - now)) else none
          | none => none)
      = some ((digitsToNat (pyStrip s) : ℚ))
    rw [if_neg htrim, if_pos hdig]
  · intro s ts hs htrim hdig hts hlt
    subst hs
    constructor
    · show (if pyStrip s = "" then none
          else if isDigitsStr (pyStrip s) then some ((digitsToNat (pyStrip s) : ℚ))
          else match parseDate (pyStrip s) with
            | some u => if 0 < u - now then some (max 1 (u - now)) else none
            | none => none)
        = some (max 1 (ts - now))
      rw [if_neg htrim, if_neg (by simp [hdig]), hts]
      show (if 0 < ts - now then some (max 1 (ts - now)) else none) = some (max 1 (ts - now))
      rw [if_pos (by linarith)]
    · exact lt_of_lt_of_le one_pos (le_max_left _ _)

/-- Witness for C5 at a concrete 429 response carrying `Retry-After: 120`. -/
theorem retry_wait_policy_witness :
    (fetch_html_retry_update (fun _ => none) 0 429 0 (some "120") 7).2
      = max 7 (fetch_html_retry_update (fun _ => none) 0 429 0 (some "120") 7).1 ∧
    (30 : ℚ) ≤ (fetch_html_retry_update (fun _ => none) 0 429 0 (some "120") 7).1 ∧
    ((digitsToNat (pyStrip "120") : ℚ))
      ≤ (fetch_html_retry_update (fun _ => none) 0 429 0 (some "120") 7).1 := by
  have h := retry_wait_policy (fun _ => none) 0 429 0 (some "120") 7
  refine ⟨h.1, h.2.1 rfl, ?_⟩
  have hp : parse_retry_after (fun _ => none) (0 : ℚ) (some "120")
      = some ((digitsToNat (pyStrip "120") : ℚ)) :=
    h.2.2.2.1 "120" rfl (by decide) (by decide)
  exact (h.2.2.1 _ hp).1

/-! ### fetcher: Fetcher construction and spawn (C9)

The mutable per-instance state consists of `pageUrl` (`self._page_url`) and
`rateLimitDelay` (`self._rate_limit_delay`); the remaining fields are fixed
at construction.  Header dictionaries are modelled as lookup functions
(`{**a, **b}` reads from `b` first). -/

def DEFAULT_USER_AGENT : String :=
  "Mozilla/5.0 (Macintosh; Intel Mac OS X 10_15_7) AppleWebKit/537.36 (KHTML, like Gecko) Chrome/120.0.0.0 Safari/537.36"

def DEFAULT_TIMEOUT : ℚ := 30

/-- fetcher.DEFAULT_HEADERS as a lookup function. -/
def DEFAULT_HEADERS : String → Option String := fun k =>
  if k == "User-Agent" then some DEFAULT_USER_AGENT
  else if k == "Accept" then some "text/html,application/xhtml+xml,application/xml;q=0.9,*/*;q=0.8"
  else if k == "Accept-Language" then some "en-US,en;q=0.9"
  else none

/-- `{**a, **b}`: keys of `b` shadow keys of `a`. -/
def mergeDict (a b : String → Option String) : String → Option String := fun k =>
  match b k with
  | some v => some v
  | none => a k

structure Fetcher where
  timeout : ℚ
  headers : String → Option String
  useBrowser : Bool
  flaresolverrUrl : Option String
  headed : Bool
  humanBypass : Bool
  pageUrl : Option String
  rateLimitDelay : ℚ

/-- Fetcher.__init__ (connection pool and browser handles are external I/O
state and are not modelled). -/
def fetcher_init (timeout : ℚ) (headers : Option (String → Option String))
    (useBrowser : Bool) (flaresolverrUrl : Option String)
    (headed humanBypass : Bool) : Fetcher :=
  { timeout := timeout
    headers := mergeDict DEFAULT_HEADERS (headers.getD (fun _ => none))
    useBrowser := useBrowser
    flaresolverrUrl := flaresolverrUrl
    headed := headed || humanBypass
    humanBypass := humanBypass
    pageUrl := none
    rateLimitDelay := 0 }

/-- Fetcher.spawn. -/
def Fetcher.spawn (f : Fetcher) : Fetcher :=
  fetcher_init f.timeout (some f.headers) f.useBrowser f.flaresolverrUrl f.headed f.humanBypass

/-- A fetcher in a reachable state: constructed by `__init__`, after which
only the page referer and the rate-limit floor may have been mutated. -/
def ReachableFetcher (f : Fetcher) : Prop :=
  ∃ t h ub fu hd hb d p,
    f = { fetcher_init t h ub fu hd hb with rateLimitDelay := d, pageUrl := p }

theorem mergeDict_idem (h : String → Option String) :
    mergeDict DEFAULT_HEADERS (mergeDict DEFAULT_HEADERS h) = mergeDict DEFAULT_HEADERS h := by
  funext k
  unfold mergeDict
  cases hk : h k
  · cases hdk : DEFAULT_HEADERS k <;> simp [hk, hdk]
  · simp [hk]

/-- Claim C9: spawn returns a fetcher with identical configuration (timeout,
headers, browser mode, challenge-proxy URL, headed/human-bypass flags) and
fresh per-instance state: rate-limit floor 0 and no sticky page referer,
whatever throttle state the parent accumulated. -/
theorem spawn_fresh_config (f : Fetcher) (hf : ReachableFetcher f) :
    f.spawn.timeout = f.timeout ∧
    f.spawn.headers = f.headers ∧
    f.spawn.useBrowser = f.useBrowser ∧
    f.spawn.flaresolverrUrl = f.flaresolverrUrl ∧
    f.spawn.headed = f.headed ∧
    f.spawn.humanBypass = f.humanBypass ∧
    f.spawn.rateLimitDelay = 0 ∧
    f.spawn.pageUrl = none := by
  obtain ⟨t, h, ub, fu, hd, hb, d, p, rfl⟩ := hf
  refine ⟨rfl, ?_, rfl, rfl, ?_, rfl, rfl, rfl⟩
  · exact mergeDict_idem (h.getD (fun _ => none))
  · cases hd <;> cases hb <;> rfl

/-- Witness for C9: a throttled, referer-carrying fetcher spawns clean. -/
theorem spawn_fresh_config_witness :
    ReachableFetcher
      { fetcher_init 5 none true (some "http://proxy.test/v1") false true with
          rateLimitDelay := 9, pageUrl := some "http://p.test/page" } ∧
    ({ fetcher_init 5 none true (some "http://proxy.test/v1") false true with
        rateLimitDelay := 9, pageUrl := some "http://p.test/page" } : Fetcher).spawn.rateLimitDelay
      = 0 := by
  have hr : ReachableFetcher
      { fetcher_init 5 none true (some "http://proxy.test/v1") false true with
          rateLimitDelay := 9, pageUrl := some "http://p.test/page" } :=
    ⟨5, none, true, some "http://proxy.test/v1", false, true, 9, some "http://p.test/page", rfl⟩
  exact ⟨hr, (spawn_fresh_config _ hr).2.2.2.2.2.2.1⟩

/-! ### pipeline: effective asset parallelism (C4)

Scrape-phase work items are `(url, best_url, content_type)` triples. -/

def SAFE_ASSET_WORKERS : Nat := 8
def LARGE_IIIF_MIN_COUNT : Nat := 10

/-- pipeline._is_large_iiif_image. -/
def is_large_iiif_image (url : String) : Bool :=
  if url == "" || !occursS "/iiif/image/" (toLowerS url) then false
  else occursS "/full/" (toLowerS (pyUrlsplit url).path)

/-- The non-PDF entries of a scrape worklist
(`image_items` in `_effective_asset_workers`). -/
def eawImageItems (workItems : List (String × String × Option String)) :
    List (String × String × Option String) :=
  workItems.filter (fun w => w.2.2 != some "application/pdf")

/-- The number of non-PDF entries whose fetch URL is a large IIIF
full-region image (`large_count` in `_effective_asset_workers`). -/
def eawLargeCount (workItems : List (String × String × Option String)) : Nat :=
  ((eawImageItems workItems).filter (fun w => is_large_iiif_image w.2.1)).length

/-- pipeline._effective_asset_workers. -/
def effective_asset_workers (workItems : List (String × String × Option String))
    (requested : Nat) (useBrowser : Bool) : Nat :=
  if useBrowser || requested ≤ 1 then (if useBrowser then 1 else requested)
  else if LARGE_IIIF_MIN_COUNT ≤ eawLargeCount workItems
      && (eawImageItems workItems).length / 2 ≤ eawLargeCount workItems then 1
  else
    min requested (min SAFE_ASSET_WORKERS
      (if workItems.length == 0 then 1 else workItems.length))

/-- Modelled from the spec: the claimed rule — downgrade to 1 exactly when at
least 50 percent of the worklist is large-IIIF full-region images and there
are at least 10 such items; otherwise min(requested, safe, worklist size). -/
def spec_effective_asset_workers (workItems : List (String × String × Option String))
    (requested : Nat) : Nat :=
  if 10 ≤ eawLargeCount workItems ∧ workItems.length ≤ 2 * eawLargeCount workItems then 1
  else min requested (min SAFE_ASSET_WORKERS workItems.length)

/-- A 21-item worklist, all images, of which 10 are large IIIF full-region
images — a strictly-below-50-percent share. -/
def c4CexWork : List (String × String × Option String) :=
  (List.range 10).map (fun i =>
    ("u" ++ toString i,
     "http://h.test/iiif/image/" ++ toString i ++ "/full/full/0/default.jpg",
     some "image")) ++
  (List.range 11).map (fun i =>
    ("v" ++ toString i, "http://h.test/pic" ++ toString i ++ ".jpg", some "image"))

/-- Counterexample for C4: with 10 large-IIIF images among 21 images (a 47.6
percent share), the code downgrades to 1 worker although the claimed
at-least-50-percent rule would keep min(requested, safe, 21) = 4. -/
theorem effective_asset_workers_cex :
    effective_asset_workers c4CexWork 4 false = 1 ∧
    spec_effective_asset_workers c4CexWork 4 = 4 ∧
    effective_asset_workers c4CexWork 4 false ≠ spec_effective_asset_workers c4CexWork 4 := by
  refine ⟨by decide, by decide, by decide⟩

/-- Claim C4 (amended): with browser mode off and requested parallelism above
one, the effective parallelism is 1 exactly when the large-IIIF count is at
least 10 and at least half (rounded down) of the non-PDF items; otherwise it
is min(requested, safe_asset_workers, worklist size), an empty worklist
counting as size one. -/
theorem effective_asset_workers_amended
    (workItems : List (String × String × Option String)) (requested : Nat)
    (h2 : 2 ≤ requested) :
    (LARGE_IIIF_MIN_COUNT ≤ eawLargeCount workItems ∧
      (eawImageItems workItems).length ≤ 2 * eawLargeCount workItems + 1 →
      effective_asset_workers workItems requested false = 1) ∧
    (¬(LARGE_IIIF_MIN_COUNT ≤ eawLargeCount workItems ∧
      (eawImageItems workItems).length ≤ 2 * eawLargeCount workItems + 1) →
      effective_asset_workers workItems requested false
        = min requested (min SAFE_ASSET_WORKERS (max workItems.length 1))) := by
  have hreq : ¬(false || decide (requested ≤ 1)) = true := by
    simp
    omega
  have hdiv : ((eawImageItems workItems).length / 2 ≤ eawLargeCount workItems)
      ↔ ((eawImageItems workItems).length ≤ 2 * eawLargeCount workItems + 1) := by
    omega
  have hmax : (if workItems.length == 0 then 1 else workItems.length)
      = max workItems.length 1 := by
    cases h : workItems.length
    · rfl
    · simp
  constructor
  · intro hcond
    unfold effective_asset_workers
    rw [if_neg hreq, if_pos]
    simp only [Bool.and_eq_true, decide_eq_true_eq]
    exact ⟨hcond.1, hdiv.mpr hcond.2⟩
  · intro hcond
    unfold effective_asset_workers
    rw [if_neg hreq, if_neg, hmax]
    simp only [Bool.and_eq_true, decide_eq_true_eq]
    intro hc
    exact hcond ⟨hc.1, hdiv.mp hc.2⟩

/-- Witness for C4 (amended) at the claimed boundary: exactly 10 large items
among 20 images downgrades to 1. -/
theorem effective_asset_workers_amended_witness :
    effective_asset_workers
      ((List.range 10).map (fun i =>
        ("u" ++ toString i,
         "http://h.test/iiif/image/" ++ toString i ++ "/full/full/0/default.jpg",
         some "image")) ++
       (List.range 10).map (fun i =>
        ("v" ++ toString i, "http://h.test/pic" ++ toString i ++ ".jpg", some "image")))
      4 false = 1 := by
  exact (effective_asset_workers_amended _ 4 (by norm_num)).1 (by decide)

/-! ### fetcher.Fetcher.fetch_binary (httpx branch, C3)

The network is an oracle `net : String → Nat → StreamResp` giving the
response for a URL at a given attempt index.  A streamed body is the list of
chunks written before the connection either completes or is interrupted;
interruption raises an httpx RequestError, which carries no response and is
therefore re-raised without retry, exactly as in the source.  The filesystem
records created directories and file contents; `open(dest, "wb")` truncates,
so a write replaces the file content. -/

inductive StreamResp where
  | httpErr (code : Nat) (retryAfter : Option String)
  | connErr
  | body (written : List Nat) (complete : Bool)
deriving DecidableEq

inductive FetchResult where
  | success (b : Bool)
  | raised
deriving DecidableEq

structure FsState where
  dirs : List String
  files : List (String × List Nat)
deriving DecidableEq

/-- `dest_path.parent.mkdir(parents=True, exist_ok=True)`. -/
def mkdirParent (parent : String) (fs : FsState) : FsState :=
  if parent ∈ fs.dirs then fs else { fs with dirs := fs.dirs ++ [parent] }

/-- Write (truncating) `content` at `path`. -/
def fsWrite (path : String) (content : List Nat) (fs : FsState) : FsState :=
  { fs with files := (path, content) :: fs.files }

/-- Current content of the file at `path`, if any. -/
def fsLookup (path : String) (fs : FsState) : Option (List Nat) :=
  (fs.files.find? (fun kv => kv.1 == path)).map (fun kv => kv.2)

/-- fetcher._iiif_alternate_url. -/
def iiif_alternate_url (url : String) : Option String :=
  if occursS "/full/full/" url then some (replaceFirstSub "/full/full/" "/full/max/" url)
  else if occursS "/full/max/" url then some (replaceFirstSub "/full/max/" "/full/full/" url)
  else none

def MAX_RETRIES : Nat := 3
def MAX_RETRIES_5XX : Nat := 6

/-- The one-shot alternate-size request made on a 501: on any body the chunks
received are written at the destination; errors of the alternate request are
swallowed.  Returns (completed, filesystem). -/
def attempt_alt_501_inner (dest parent : String) (fs : FsState) :
    StreamResp → Bool × FsState
  | .body w true => (true, fsWrite dest w (mkdirParent parent fs))
  | .body w false => (false, fsWrite dest w (mkdirParent parent fs))
  | _ => (false, fs)

def attempt_alt_501 (net : String → Nat → StreamResp) (url dest parent : String)
    (attempt : Nat) (fs : FsState) : Bool × FsState :=
  match iiif_alternate_url url with
  | some altUrl => attempt_alt_501_inner dest parent fs (net altUrl attempt)
  | none => (false, fs)

/-- The filesystem and completion flag after the except-branch handling of an
HTTP status error: a 501 triggers the one-shot alternate attempt, any other
status leaves the filesystem untouched. -/
def alt_state (net : String → Nat → StreamResp) (url dest parent : String)
    (attempt : Nat) (fs : FsState) (code : Nat) : Bool × FsState :=
  if code == 501 then attempt_alt_501 net url dest parent attempt fs else (false, fs)

/-- One iteration of the fetch_binary retry loop, dispatching on the response
for the current attempt; `recur` continues with the next attempt. -/
def fetch_binary_step (parseDate : String → Option ℚ) (now : ℚ)
    (net : String → Nat → StreamResp) (url dest parent : String) (attempt : Nat) :
    StreamResp → ℚ → FsState → (ℚ → FsState → FetchResult × FsState × ℚ) →
      FetchResult × FsState × ℚ
  | .body w true, floor, fs, _ =>
    (.success true, fsWrite dest w (mkdirParent parent fs), floor)
  | .body w false, floor, fs, _ =>
    (.raised, fsWrite dest w (mkdirParent parent fs), floor)
  | .connErr, floor, fs, _ => (.raised, fs, floor)
  | .httpErr code ra, floor, fs, recur =>
    if (alt_state net url dest parent attempt fs code).1 then
      (.success true, (alt_state net url dest parent attempt fs code).2, floor)
    else if (code == 403 || code == 429 || code == 500 || code == 502
          || code == 503 || code == 504) = true
        ∧ attempt + 1 < (if is_retryable_5xx (some code) then MAX_RETRIES_5XX
            else MAX_RETRIES) then
      recur
        (max floor (if code == 429
          then max (wait_for_retry parseDate now (some code) attempt ra) 30
          else wait_for_retry parseDate now (some code) attempt ra))
        (alt_state net url dest parent attempt fs code).2
    else (.raised, (alt_state net url dest parent attempt fs code).2, floor)

/-- Fetcher.fetch_binary, httpx branch: the retry loop over attempt indices.
`rem` is the number of remaining loop iterations (initially MAX_RETRIES_5XX);
returns (outcome, filesystem, rate-limit floor). -/
def fetch_binary_attempts (parseDate : String → Option ℚ) (now : ℚ)
    (net : String → Nat → StreamResp) (url dest parent : String) :
    Nat → Nat → ℚ → FsState → FetchResult × FsState × ℚ
  | _, 0, floor, fs => (.raised, fs, floor)
  | attempt, rem + 1, floor, fs =>
    fetch_binary_step parseDate now net url dest parent attempt
      (net url attempt) floor fs
      (fun floorN fsN =>
        fetch_binary_attempts parseDate now net url dest parent (attempt + 1) rem floorN fsN)

/-- Fetcher.fetch_binary (httpx branch). -/
def fetch_binary (parseDate : String → Option ℚ) (now : ℚ)
    (net : String → Nat → StreamResp) (url dest parent : String)
    (floor : ℚ) (fs : FsState) : FetchResult × FsState × ℚ :=
  fetch_binary_attempts parseDate now net url dest parent 0 MAX_RETRIES_5XX floor fs

/-- Counterexample for C3: a download whose stream is interrupted after one
chunk leaves a partial file at the destination and raises — the filesystem at
the destination is not unchanged on error, because the body is streamed
directly to the destination, not to a temporary location. -/
theorem fetch_binary_cex :
    fetch_binary (fun _ => none) 0
        (fun u i => if u == "http://h.test/img.jpg" && i == 0 then .body [7] false
          else .connErr)
        "http://h.test/img.jpg" "out/h.test/images/img.jpg" "out/h.test/images" 0 ⟨[], []⟩
      = (.raised,
         ⟨["out/h.test/images"], [("out/h.test/images/img.jpg", [7])]⟩,
         0) := by
  decide

theorem mkdirParent_contains (parent : String) (fs : FsState) :
    parent ∈ (mkdirParent parent fs).dirs := by
  unfold mkdirParent
  split
  · assumption
  · simp

theorem fsLookup_fsWrite (path : String) (content : List Nat) (fs : FsState) :
    fsLookup path (fsWrite path content fs) = some content := by
  simp [fsLookup, fsWrite, List.find?]

theorem attempt_alt_501_success (net : String → Nat → StreamResp)
    (url dest parent : String) (attempt : Nat) (fs : FsState)
    (h : (attempt_alt_501 net url dest parent attempt fs).1 = true) :
    ∃ w altUrl, iiif_alternate_url url = some altUrl ∧
      net altUrl attempt = .body w true ∧
      (attempt_alt_501 net url dest parent attempt fs).2
        = fsWrite dest w (mkdirParent parent fs) := by
  cases halt : iiif_alternate_url url with
  | none =>
    unfold attempt_alt_501 at h
    rw [halt] at h
    exact absurd h (by simp)
  | some altUrl =>
    unfold attempt_alt_501 at h
    rw [halt] at h
    have h2 : (attempt_alt_501_inner dest parent fs (net altUrl attempt)).1 = true := h
    cases hnet : net altUrl attempt with
    | body w complete =>
      rw [hnet] at h2
      cases complete with
      | true =>
        refine ⟨w, altUrl, rfl, hnet, ?_⟩
        unfold attempt_alt_501
        rw [halt]
        show (attempt_alt_501_inner dest parent fs (net altUrl attempt)).2
          = fsWrite dest w (mkdirParent parent fs)
        rw [hnet]
        rfl
      | false => exact absurd h2 (by simp [attempt_alt_501_inner])
    | httpErr code ra =>
      rw [hnet] at h2
      exact absurd h2 (by simp [attempt_alt_501_inner])
    | connErr =>
      rw [hnet] at h2
      exact absurd h2 (by simp [attempt_alt_501_inner])

/-- Claim C3 (amended): fetch_binary streams the body directly to the
destination (no temporary file): whenever it returns success, the destination
holds the full body of the attempt that succeeded (over the main URL or the
IIIF 501 alternate) and the parent directory of the destination was created. -/
theorem fetch_binary_success_writes (parseDate : String → Option ℚ) (now : ℚ)
    (net : String → Nat → StreamResp) (url dest parent : String) :
    ∀ rem attempt floor fs,
    (fetch_binary_attempts parseDate now net url dest parent attempt rem floor fs).1
        = .success true →
    ∃ w i u2,
      fsLookup dest
          (fetch_binary_attempts parseDate now net url dest parent attempt rem floor fs).2.1
        = some w ∧
      parent ∈
        (fetch_binary_attempts parseDate now net url dest parent attempt rem floor fs).2.1.dirs ∧
      (u2 = url ∨ iiif_alternate_url url = some u2) ∧
      net u2 i = .body w true := by
  intro rem
  induction rem with
  | zero =>
    intro attempt floor fs h
    exact absurd h (by simp [fetch_binary_attempts])
  | succ n ih =>
    intro attempt floor fs h
    unfold fetch_binary_attempts at h ⊢
    cases hnet : net url attempt with
    | body w complete =>
      rw [hnet] at h
      cases complete with
      | true =>
        simp only [fetch_binary_step] at h ⊢
        refine ⟨w, attempt, url, ?_, ?_, Or.inl rfl, hnet⟩
        · exact fsLookup_fsWrite dest w (mkdirParent parent fs)
        · exact mkdirParent_contains parent fs
      | false =>
        simp only [fetch_binary_step] at h
        exact absurd h (by simp)
    | connErr =>
      rw [hnet] at h
      simp only [fetch_binary_step] at h
      exact absurd h (by simp)
    | httpErr code ra =>
      rw [hnet] at h
      simp only [fetch_binary_step] at h ⊢
      by_cases halt1 : (alt_state net url dest parent attempt fs code).1 = true
      · rw [if_pos halt1] at h ⊢
        by_cases h501 : (code == 501) = true
        · have hdef : alt_state net url dest parent attempt fs code
              = attempt_alt_501 net url dest parent attempt fs := by
            unfold alt_state
            rw [if_pos h501]
          rw [hdef] at halt1
          obtain ⟨w, altUrl, haltUrl, hnet2, hfs⟩ :=
            attempt_alt_501_success net url dest parent attempt fs halt1
          refine ⟨w, attempt, altUrl, ?_, ?_, Or.inr haltUrl, hnet2⟩
          · show fsLookup dest (alt_state net url dest parent attempt fs code).2 = some w
            rw [hdef, hfs]
            exact fsLookup_fsWrite dest w (mkdirParent parent fs)
          · show parent ∈ (alt_state net url dest parent attempt fs code).2.dirs
            rw [hdef, hfs]
            exact mkdirParent_contains parent fs
        · have hdef : alt_state net url dest parent attempt fs code = (false, fs) := by
            unfold alt_state
            rw [if_neg h501]
          rw [hdef] at halt1
          exact absurd halt1 (by simp)
      · rw [if_neg halt1] at h ⊢
        by_cases hretry : ((code == 403 || code == 429 || code == 500 || code == 502
              || code == 503 || code == 504) = true
            ∧ attempt + 1 < (if is_retryable_5xx (some code) then MAX_RETRIES_5XX
                else MAX_RETRIES))
        · rw [if_pos hretry] at h ⊢
          exact ih (attempt + 1) _ _ h
        · rw [if_neg hretry] at h
          exact absurd h (by simp)

/-- Witness for C3 (amended) at a concrete network where the first attempt
streams the full body. -/
theorem fetch_binary_success_writes_witness :
    (fetch_binary_attempts (fun _ => none) 0 (fun _ _ => .body [1, 2] true)
        "http://h.test/a.jpg" "out/h.test/images/a.jpg" "out/h.test/images"
        0 MAX_RETRIES_5XX 0 ⟨[], []⟩).1 = .success true ∧
    ∃ w i u2,
      fsLookup "out/h.test/images/a.jpg"
          (fetch_binary_attempts (fun _ => none) 0 (fun _ _ => .body [1, 2] true)
            "http://h.test/a.jpg" "out/h.test/images/a.jpg" "out/h.test/images"
            0 MAX_RETRIES_5XX 0 ⟨[], []⟩).2.1
        = some w ∧
      "out/h.test/images" ∈
        (fetch_binary_attempts (fun _ => none) 0 (fun _ _ => .body [1, 2] true)
          "http://h.test/a.jpg" "out/h.test/images/a.jpg" "out/h.test/images"
          0 MAX_RETRIES_5XX 0 ⟨[], []⟩).2.1.dirs ∧
      (u2 = "http://h.test/a.jpg" ∨
        iiif_alternate_url "http://h.test/a.jpg" = some u2) ∧
      (fun (_ : String) (_ : Nat) => StreamResp.body [1, 2] true) u2 i
        = StreamResp.body w true := by
  constructor
  · decide
  · exact fetch_binary_success_writes (fun _ => none) 0 (fun _ _ => .body [1, 2] true)
      "http://h.test/a.jpg" "out/h.test/images/a.jpg" "out/h.test/images"
      MAX_RETRIES_5XX 0 0 ⟨[], []⟩ (by decide)

/-! ### pipeline.scrape_page, parallel branch (C1)

`_download_asset` and the `as_completed` consumer loop, over abstract
oracles: `skip t` is the canonical-path size-match hit for task `t`, and
`net u` the success of `fetch_binary(u, dest)` (failures modelled as clean
HTTP errors that create no file; an interrupted stream can additionally
leave a partial file, see `fetch_binary_cex`).  A task is
`(fetch_url, dest, content_type, map_key)`; the `urls` mapping of the manifest is
an association list to which the consumer appends. -/

structure AssetTask where
  fetchUrl : String
  dest : String
  ct : String
  mapKey : String
deriving DecidableEq

/-- scrape_page._download_asset: returns `(map_key, dest, ct, status)`,
where `status` is "pdf" or "image" on success and "fail:" on failure. -/
def download_asset (skip : AssetTask → Bool) (net : String → Bool)
    (t : AssetTask) : String × String × String × String :=
  if skip t then
    (t.mapKey, t.dest, t.ct, if t.ct == "application/pdf" then "pdf" else "image")
  else if net t.fetchUrl then
    (t.mapKey, t.dest, t.ct, if t.ct == "application/pdf" then "pdf" else "image")
  else if t.ct != "application/pdf" && t.mapKey != t.fetchUrl then
    (if net t.mapKey then (t.mapKey, t.dest, t.ct, "image")
     else (t.mapKey, t.dest, t.ct, "fail:download"))
  else (t.mapKey, t.dest, t.ct, "fail:download")

/-- Whether `_download_asset` created a file at the destination of the task. -/
def download_creates (skip : AssetTask → Bool) (net : String → Bool)
    (t : AssetTask) : Bool :=
  !skip t && (net t.fetchUrl
    || (t.ct != "application/pdf" && t.mapKey != t.fetchUrl && net t.mapKey))

/-- The consumer loop of the parallel branch of scrape_page: for every completed
task it stores `urls_map[map_key] = dest` and `types_map[map_key] = ct`
under the manifest lock, and only afterwards inspects the status (which is
used for logging and the progress callback).  Returns (urls entries,
destinations of files actually created). -/
def scrape_page_parallel_record (skip : AssetTask → Bool) (net : String → Bool)
    (tasks : List AssetTask) : List (String × String) × List String :=
  tasks.foldl
    (fun acc t =>
      let r := download_asset skip net t
      (acc.1 ++ [(r.1, r.2.1)],
       if download_creates skip net t then acc.2 ++ [t.dest] else acc.2))
    ([], [])

/-- Claim C1, evaluated at the failing input: one image task whose download
fails on both the rewritten and the original URL, destination not previously
on disk.  The consumer still records the manifest entry, so at save time
`manifest.urls` maps the source URL to a path at which no file exists. -/
theorem scrape_page_parallel_records_failed :
    scrape_page_parallel_record (fun _ => false) (fun _ => false)
        [⟨"http://h.test/full.jpg", "out/h.test/images/full.jpg", "image",
          "http://h.test/thumb.jpg"⟩]
      = ([("http://h.test/thumb.jpg", "out/h.test/images/full.jpg")], []) ∧
    (download_asset (fun _ => false) (fun _ => false)
        ⟨"http://h.test/full.jpg", "out/h.test/images/full.jpg", "image",
          "http://h.test/thumb.jpg"⟩).2.2.2
      = "fail:download" := by
  refine ⟨by decide, by decide⟩

/-! ### pipeline.crawl_parallel.run_crawl.worker (C2)

A deterministic single-worker execution of the worker loop.  The queue holds
page items or the terminating sentinel (`none`); `pending` is the shared
pending counter; `linkOracle url` gives the links `process_one` returns for
a page (robots allowing, scrape succeeding).  The worker body is modelled
statement for statement: depth check, visit-set check, scrape, then the
`finally` block decrementing `pending` (fanning out one sentinel per worker
when it reaches zero), and only afterwards the loop pushing the discovered
links and incrementing `pending`. -/

structure CrawlState where
  queue : List (Option (String × Nat))
  pending : Int
  seen : List String
  processed : List String
deriving DecidableEq

/-- The `finally` block: decrement pending; at zero, enqueue one sentinel per
worker. -/
def decPending (workers : Nat) (st : CrawlState) : CrawlState :=
  if st.pending - 1 = 0 then
    { st with pending := st.pending - 1,
              queue := st.queue ++ List.replicate workers none }
  else { st with pending := st.pending - 1 }

/-- The link-push loop run after the `finally` block: domain filter, visit-set
test-and-set, enqueue, increment pending. -/
def pushLinks (sameDom : Bool) (startDomain : String) (depth : Nat)
    (links : List String) (st : CrawlState) : CrawlState :=
  links.foldl
    (fun s link =>
      if sameDom && ((pyUrlsplit link).netloc != startDomain) then s
      else if s.seen.contains link then s
      else
        { s with seen := s.seen ++ [link],
                 queue := s.queue ++ [some (link, depth + 1)],
                 pending := s.pending + 1 })
    st

/-- One worker running the crawl loop to completion (fuel-bounded); returns
the final shared state when the worker exits on a sentinel (or fuel runs
out; an empty queue would block the worker). -/
def workerRun (linkOracle : String → List String) (workers : Nat) (maxDepth : Nat)
    (sameDom : Bool) (startDomain : String) : Nat → CrawlState → CrawlState
  | 0, st => st
  | fuel + 1, st =>
    match st.queue with
    | [] => st
    | none :: rest => { st with queue := rest }
    | some (url, depth) :: rest =>
      let st1 : CrawlState := { st with queue := rest }
      if maxDepth < depth then
        workerRun linkOracle workers maxDepth sameDom startDomain fuel
          (decPending workers st1)
      else if st1.seen.contains url then
        workerRun linkOracle workers maxDepth sameDom startDomain fuel
          (decPending workers st1)
      else
        workerRun linkOracle workers maxDepth sameDom startDomain fuel
          (pushLinks sameDom startDomain depth (linkOracle url)
            (decPending workers
              { st1 with seen := st1.seen ++ [url],
                         processed := st1.processed ++ [url] }))

/-- Claim C2, evaluated at the failing input: one worker, seed page whose
scrape discovers one fresh link, depth cap 1.  The worker decrements pending
to 0 and enqueues the sentinel before pushing the link, so the link lands
behind the sentinel: the worker exits with the link still queued, pending
back at 1, and only the seed ever processed. -/
theorem crawl_parallel_drops_links :
    workerRun (fun u => if u == "http://s.test/" then ["http://s.test/a"] else [])
        1 1 false "" 10
        ⟨[some ("http://s.test/", 0)], 1, [], []⟩
      = ⟨[some ("http://s.test/a", 1)], 1,
         ["http://s.test/", "http://s.test/a"], ["http://s.test/"]⟩ := by
  decide

/-! ### extractors.find_page_links and pipeline.map_page (C10)

The DOM is abstracted to the list of `a[href]` attribute values in document
order, and `urllib.parse.urljoin` to an oracle `urljoin base raw`; the
same-host filter itself is fully modelled. -/

/-- One candidate of extractors._resolve_urls: strip, drop fragment/mailto/
javascript/data URLs, resolve, dedupe against `seen`.  Returns (new urls,
updated seen). -/
def resolve_candidate (urljoin : String → String → String) (baseUrl : String)
    (seen : List String) (raw : String) : List String × List String :=
  let raw := pyStrip raw
  if raw = "" || startsWithS "#" raw || startsWithS "mailto:" raw
      || startsWithS "javascript:" raw || startsWithS "data:" raw then
    ([], seen)
  else
    let u := urljoin baseUrl raw
    if u ≠ "" && !seen.contains u then ([u], seen ++ [u]) else ([], seen)

/-- `parsed.path.lower().endswith(asset_extensions)`. -/
def pathEndsAsset (path : String) : Bool :=
  let p := toLowerS path
  endsWithS ".pdf" p || endsWithS ".jpg" p || endsWithS ".jpeg" p || endsWithS ".png" p
    || endsWithS ".gif" p || endsWithS ".webp" p || endsWithS ".svg" p || endsWithS ".zip" p

/-- Python truthiness of the `same_domain` argument. -/
def sameDomainTruthy : Option String → Bool
  | some sd => sd != ""
  | none => false

/-- The per-link filter of find_page_links: scheme in {http, https}, path not
an asset, and — when the same-domain argument is truthy — netloc equal to the
netloc of the base URL (the source compares against `urlparse(base_url).netloc`,
not against the value of the argument). -/
def page_link_accepted (truthy : Bool) (baseUrl : String) (absUrl : String) : Bool :=
  if !((pyUrlsplit absUrl).scheme == "http" || (pyUrlsplit absUrl).scheme == "https") then
    false
  else if pathEndsAsset (pyUrlsplit absUrl).path then false
  else if truthy && ((pyUrlsplit absUrl).netloc != (pyUrlsplit baseUrl).netloc) then false
  else true

/-- extractors.find_page_links over the anchor hrefs of a page. -/
def find_page_links (urljoin : String → String → String) (hrefs : List String)
    (baseUrl : String) (sameDomain : Option String) : List String :=
  (hrefs.foldl
    (fun (st : List String × List String) href =>
      let res := resolve_candidate urljoin baseUrl st.1 href
      (res.2,
       res.1.foldl
         (fun urls absUrl =>
           if page_link_accepted (sameDomainTruthy sameDomain) baseUrl absUrl then
             urls ++ [absUrl]
           else urls)
         st.2))
    (([], []) : List String × List String)).2

/-- pipeline.map_page, link computation: the same-domain argument defaults to
the netloc of the page itself (`same_domain or urlparse(url).netloc`). -/
def map_page_links (urljoin : String → String → String) (hrefs : List String)
    (url : String) (sameDomain : Option String) : List String :=
  find_page_links urljoin hrefs url
    (some (match sameDomain with
      | some sd => if sd = "" then (pyUrlsplit url).netloc else sd
      | none => (pyUrlsplit url).netloc))

theorem page_link_accepted_netloc (baseUrl absUrl : String)
    (h : page_link_accepted true baseUrl absUrl = true) :
    (pyUrlsplit absUrl).netloc = (pyUrlsplit baseUrl).netloc := by
  unfold page_link_accepted at h
  split at h
  · exact absurd h (by simp)
  · split at h
    · exact absurd h (by simp)
    · split at h
      · exact absurd h (by simp)
      · rename_i hcond
        simpa using hcond

theorem find_page_links_inner_invariant (truthy : Bool) (baseUrl : String)
    (P : String → Prop)
    (hP : ∀ u, page_link_accepted truthy baseUrl u = true → P u) :
    ∀ (news urls : List String), (∀ u ∈ urls, P u) →
      ∀ u ∈ news.foldl
        (fun urls absUrl =>
          if page_link_accepted truthy baseUrl absUrl then urls ++ [absUrl] else urls)
        urls, P u := by
  intro news
  induction news with
  | nil => intro urls hu u hm; exact hu u hm
  | cons a rest ih =>
    intro urls hu u hm
    simp only [List.foldl_cons] at hm
    refine ih _ ?_ u hm
    intro v hv
    by_cases hacc : page_link_accepted truthy baseUrl a = true
    · rw [if_pos hacc] at hv
      rcases List.mem_append.mp hv with hv | hv
      · exact hu v hv
      · rw [List.mem_singleton.mp hv]
        exact hP a hacc
    · rw [if_neg hacc] at hv
      exact hu v hv

/-- Claim C10: when map_page is called without an explicit same-domain
filter on a page whose URL has a nonempty netloc, every returned page link
has the netloc of the page itself — the same-host filter applies unconditionally,
defaulting to the host of the page. -/
theorem map_page_links_same_host (urljoin : String → String → String)
    (hrefs : List String) (url : String)
    (h : (pyUrlsplit url).netloc ≠ "") :
    ∀ u ∈ map_page_links urljoin hrefs url none,
      (pyUrlsplit u).netloc = (pyUrlsplit url).netloc := by
  have htr : sameDomainTruthy (some (pyUrlsplit url).netloc) = true := by
    simpa [sameDomainTruthy] using h
  unfold map_page_links find_page_links
  suffices hgen : ∀ (hs : List String) (st : List String × List String),
      (∀ u ∈ st.2, (pyUrlsplit u).netloc = (pyUrlsplit url).netloc) →
      ∀ u ∈ (hs.foldl
        (fun (st : List String × List String) href =>
          let res := resolve_candidate urljoin url st.1 href
          (res.2,
           res.1.foldl
             (fun urls absUrl =>
               if page_link_accepted
                   (sameDomainTruthy (some (pyUrlsplit url).netloc)) url absUrl then
                 urls ++ [absUrl]
               else urls)
             st.2))
        st).2, (pyUrlsplit u).netloc = (pyUrlsplit url).netloc by
    intro u hu
    exact hgen hrefs ([], []) (by intro v hv; exact absurd hv (List.not_mem_nil v)) u hu
  intro hs
  induction hs with
  | nil => intro st hst u hm; exact hst u hm
  | cons href rest ih =>
    intro st hst u hm
    simp only [List.foldl_cons] at hm
    refine ih _ ?_ u hm
    intro v hv
    refine find_page_links_inner_invariant
      (sameDomainTruthy (some (pyUrlsplit url).netloc)) url
      (fun w => (pyUrlsplit w).netloc = (pyUrlsplit url).netloc) ?_
      _ st.2 hst v hv
    intro w hw
    rw [htr] at hw
    exact page_link_accepted_netloc url w hw

/-- Witness for C10 at a concrete page with one same-host and one cross-host
link. -/
theorem map_page_links_same_host_witness :
    (pyUrlsplit "http://a.test/x").netloc ≠ "" ∧
    ∀ u ∈ map_page_links (fun _ raw => raw)
        ["http://a.test/y", "http://b.test/z"] "http://a.test/x" none,
      (pyUrlsplit u).netloc = (pyUrlsplit "http://a.test/x").netloc :=
  ⟨by decide,
   map_page_links_same_host (fun _ raw => raw)
     ["http://a.test/y", "http://b.test/z"] "http://a.test/x" (by decide)⟩

end Strigil
